import Mathlib

/-!
Verification of the event-selection and formatting logic of
waybar-google-calendar-check (src/main.go), together with models of the
day-window computation, the setup OAuth code-exchange flow, and the
credentials reader.

Modelling conventions:
* A Go `time.Time` is modelled as `GoTime`: an absolute second count since
  Go's zero time (Jan 1, year 1, 00:00:00 UTC) plus the zone offset, in
  seconds, of the location attached to the value.  `time.Parse` with an
  RFC3339 layout attaches the offset written in the string.
* `time.Parse(time.RFC3339, s)` is modelled by `parseRFC3339` (fractional
  seconds, which no claim exercises, are not modelled: such strings are
  treated as unparseable).  `run` discards parse errors (`start, _ :=`),
  which is modelled by `Option.getD goZero`.
* `sort.Slice(events.Items, less)` is modelled relationally by
  `sortSliceSpec`: the library promises only that the result is a
  permutation of the input that is sorted with respect to `less`
  (for all i < j, not less(out j, out i)); `sort.Slice` is documented as
  not stable, so nothing more may be assumed.
* The selection/formatting loop of `run` (lines 184-199) is `selectLoop`
  and `runFormat`; a `nil` selection dereference is modelled as `none`.
-/

namespace GCal

/-! ### Go time values -/

/-- A Go `time.Time`: absolute seconds since Go's zero time (midnight UTC,
January 1 of year 1) together with the offset, in seconds, of the attached
location. -/
structure GoTime where
  abs : Int
  offset : Int
deriving DecidableEq, Repr

/-- Go's zero `time.Time`: January 1, year 1, 00:00:00 UTC. -/
def goZero : GoTime := ⟨0, 0⟩

def isLeap (y : Nat) : Bool := (y % 4 == 0 && y % 100 != 0) || y % 400 == 0

def daysInMonth (y m : Nat) : Nat :=
  match m with
  | 1 => 31
  | 2 => if isLeap y then 29 else 28
  | 3 => 31
  | 4 => 30
  | 5 => 31
  | 6 => 30
  | 7 => 31
  | 8 => 31
  | 9 => 30
  | 10 => 31
  | 11 => 30
  | 12 => 31
  | _ => 0

/-- Days of the proleptic Gregorian calendar strictly before year `y`,
counted from January 1 of year 1. -/
def daysBeforeYear (y : Nat) : Nat :=
  let n := y - 1
  365 * n + n / 4 - n / 100 + n / 400

/-- Days before the first of month `m` within year `y`. -/
def daysBeforeMonth (y m : Nat) : Nat :=
  (List.range (m - 1)).foldl (fun acc k => acc + daysInMonth y (k + 1)) 0

/-- Days since January 1, year 1 of the civil date `y-m-d`. -/
def civilDays (y m d : Nat) : Nat :=
  daysBeforeYear y + daysBeforeMonth y m + (d - 1)

/-- Seconds since Go's zero time of the wall-clock datetime `y-mo-d h:mi:s`. -/
def civilSecs (y mo d h mi s : Nat) : Nat :=
  86400 * civilDays y mo d + 3600 * h + 60 * mi + s

/-- The `time.Time` produced by parsing the wall clock `y-mo-d h:mi:sec`
with zone offset `off` seconds: the absolute instant subtracts the offset,
and the offset is kept for formatting. -/
def mkGoTime (y mo d h mi sec : Nat) (off : Int) : GoTime :=
  ⟨(civilSecs y mo d h mi sec : Int) - off, off⟩

/-! ### RFC3339 parsing (`time.Parse(time.RFC3339, s)`) -/

def digitVal (c : Char) : Option Nat :=
  if 48 ≤ c.toNat ∧ c.toNat ≤ 57 then some (c.toNat - 48) else none

/-- Two decimal digits at positions `i`, `i+1`. -/
def num2 (cs : List Char) (i : Nat) : Option Nat := do
  let c1 ← cs.get? i
  let d1 ← digitVal c1
  let c2 ← cs.get? (i + 1)
  let d2 ← digitVal c2
  pure (10 * d1 + d2)

/-- Four decimal digits at positions `i`..`i+3`. -/
def num4 (cs : List Char) (i : Nat) : Option Nat := do
  let a ← num2 cs i
  let b ← num2 cs (i + 2)
  pure (100 * a + b)

def expectCh (cs : List Char) (i : Nat) (c : Char) : Option Unit :=
  if cs.get? i = some c then some () else none

/-- Numeric zone offset magnitude `hh:mm` at positions 20..24, in seconds. -/
def offsetMag (cs : List Char) : Option Nat := do
  let oh ← num2 cs 20
  let _ ← expectCh cs 22 ':'
  let om ← num2 cs 23
  if oh ≤ 23 ∧ om ≤ 59 ∧ cs.length = 25 then pure (3600 * oh + 60 * om) else none

/-- Model of `time.Parse(time.RFC3339, s)`: strict layout
`YYYY-MM-DDThh:mi:ss` followed by `Z` or `±hh:mm`, with range checks on
the fields.  Returns `none` on any malformed input (in particular on the
empty string carried by all-day events). -/
def parseRFC3339 (s : String) : Option GoTime := do
  let cs := s.data
  let y ← num4 cs 0
  let _ ← expectCh cs 4 '-'
  let mo ← num2 cs 5
  let _ ← expectCh cs 7 '-'
  let d ← num2 cs 8
  let _ ← expectCh cs 10 'T'
  let h ← num2 cs 11
  let _ ← expectCh cs 13 ':'
  let mi ← num2 cs 14
  let _ ← expectCh cs 16 ':'
  let sec ← num2 cs 17
  if 1 ≤ mo ∧ mo ≤ 12 ∧ 1 ≤ d ∧ d ≤ daysInMonth y mo ∧ h ≤ 23 ∧ mi ≤ 59 ∧ sec ≤ 59 then
    match cs.get? 19 with
    | some 'Z' => if cs.length = 20 then pure (mkGoTime y mo d h mi sec 0) else none
    | some '+' => do
        let off ← offsetMag cs
        pure (mkGoTime y mo d h mi sec (off : Int))
    | some '-' => do
        let off ← offsetMag cs
        pure (mkGoTime y mo d h mi sec (-(off : Int)))
    | _ => none
  else none

/-- Two-digit zero-padded decimal rendering (as Go's `15` and `04`
format verbs produce for values below 100). -/
def pad2 (n : Nat) : String :=
  String.mk [Char.ofNat (48 + n / 10 % 10), Char.ofNat (48 + n % 10)]

/-- Model of `t.Format("15:04")`: the wall clock of the instant in the
value's own location (absolute seconds plus offset), rendered as
zero-padded 24-hour `HH:MM`. -/
def goFormatHM (t : GoTime) : String :=
  let w := (t.abs + t.offset).toNat
  pad2 (w / 3600 % 24) ++ ":" ++ pad2 (w / 60 % 60)

/-! ### Events and the run formatter (src/main.go, `run`) -/

/-- The fields of a calendar event that `run` reads: `Start.DateTime`
(a string, empty for all-day events) and `Summary`. -/
structure Event where
  startDateTime : String
  summary : String
deriving DecidableEq, Repr

/-- The parsed start time of an event, with the parse error discarded
(`start, _ := time.Parse(...)`): an unparseable start yields Go's zero
time. -/
def goStart (e : Event) : GoTime := (parseRFC3339 e.startDateTime).getD goZero

/-- Absolute seconds of the (possibly defaulted) start time. -/
def startAbs (e : Event) : Int := (goStart e).abs

/-- The comparison closure passed to `sort.Slice` (lines 171-175):
`start1.Before(start2)` on the parsed start times. -/
def lessStart (a b : Event) : Prop := startAbs a < startAbs b

instance (a b : Event) : Decidable (lessStart a b) :=
  inferInstanceAs (Decidable (startAbs a < startAbs b))

/-- The contract of `sort.Slice(events.Items, less)`: the output is a
permutation of the input sorted with respect to `less` (for every pair of
positions i < j, not `less` of the later element over the earlier).
`sort.Slice` is documented as not guaranteed to be stable, so no stronger
property may be assumed of the output. -/
def sortSliceSpec (input output : List Event) : Prop :=
  output.Perm input ∧ output.Pairwise (fun a b => ¬ lessStart b a)

instance (input output : List Event) : Decidable (sortSliceSpec input output) :=
  inferInstanceAs (Decidable (_ ∧ _))

/-- The selection condition of the loop: `time.Now().Before(start.Add(5*time.Minute))`,
i.e. now < start + 300 seconds. -/
def nextPred (now : Int) (e : Event) : Bool := decide (now < startAbs e + 300)

/-- One tooltip line: `fmt.Sprintf("%s %s\n", start.Format("15:04"), summary)`. -/
def lineOf (e : Event) : String := goFormatHM (goStart e) ++ " " ++ e.summary ++ "\n"

/-- The loop of `run` (lines 184-193): scans the sorted list, records the
first event whose start plus the 5-minute grace window is still in the
future (`next`), and appends every event's line to the tooltip
accumulator (`alt`). -/
def selectLoop (now : Int) : Option Event → String → List Event → Option Event × String
  | next, alt, [] => (next, alt)
  | next, alt, e :: rest =>
      let hit := next.isNone && nextPred now e
      selectLoop now (if hit then some e else next) (alt ++ lineOf e) rest

/-- Reference form of the tooltip: the concatenation of `lineOf` over a
list. -/
def tooltipStr : List Event → String
  | [] => ""
  | e :: rest => lineOf e ++ tooltipStr rest

/-- Modelled from the spec: the `BarItem` struct is referenced by `run`
(lines 179 and 196) but its declaration, with its JSON field tags, is not
among the provided sources.  Per the spec it is the pair (text, tooltip)
with the tooltip omitted from the encoding when empty; the omitted case is
`none`. -/
structure BarItem where
  text : String
  tooltip : Option String
deriving DecidableEq, Repr

/-- The part of `run` after the events are fetched and sorted
(lines 177-199), as a function of the sorted list and of "now".  The
empty list short-circuits to `BarItem` with empty text and no tooltip.
Otherwise the loop runs; if it selected no event, line 195 dereferences
the nil `next` pointer, so no well-defined `BarItem` results: that case
is `none`. -/
def runFormat (sorted : List Event) (now : Int) : Option BarItem :=
  if sorted.isEmpty then some ⟨"", none⟩
  else
    let r := selectLoop now none "" sorted
    match r.1 with
    | none => none
    | some e => some ⟨goFormatHM (goStart e) ++ " " ++ e.summary, some r.2⟩

/-- Modelled from the spec: JSON string encoding used by `json.Encoder`
for the text and tooltip fields (escaping of quote, backslash and
newline; no claim depends on the escaping of other characters). -/
def jsonQuote (s : String) : String :=
  "\"" ++ String.join (s.data.map (fun c =>
    if c = '"' then "\\\"" else if c = '\\' then "\\\\"
    else if c = '\n' then "\\n" else String.mk [c])) ++ "\""

/-- Modelled from the spec: the JSON line written by
`json.NewEncoder(os.Stdout).Encode` for a `BarItem` — one object with the
`text` field, the `tooltip` field omitted when empty, and a trailing
newline. -/
def encodeBarItem (b : BarItem) : String :=
  match b.tooltip with
  | none => "\x7b\"text\":" ++ jsonQuote b.text ++ "\x7d\n"
  | some tip => "\x7b\"text\":" ++ jsonQuote b.text ++ ",\"tooltip\":" ++ jsonQuote tip ++ "\x7d\n"

/-! ### The day window (lines 164-165) -/

/-- Model of `time.Now().Truncate(time.Hour * 24)`: `Truncate` rounds the
absolute time down to a multiple of 24 hours since Go's zero time
(midnight UTC of year 1); the location plays no part. -/
def goTruncateDay (nowAbs : Nat) : Nat := nowAbs - nowAbs % 86400

/-- `from` of the query window (line 164). -/
def runFrom (nowAbs : Nat) : Nat := goTruncateDay nowAbs

/-- `to` of the query window (line 165): `from.Add(time.Hour * 24)`. -/
def runTo (nowAbs : Nat) : Nat := runFrom nowAbs + 86400

/-- Follows the spec's words: midnight of the current day in local time,
for a local zone `offset` seconds east of UTC — "now" minus the seconds
elapsed since the most recent local midnight. -/
def localMidnightSpec (nowAbs : Nat) (offset : Int) : Int :=
  (nowAbs : Int) - ((nowAbs : Int) + offset) % 86400

/-! ### The setup code-exchange flow (lines 90-108) -/

/-- An OAuth token as persisted by `setup` (opaque here). -/
structure Token where
  access : String
deriving DecidableEq, Repr

/-- Outcome of the code-exchange section of `setup`: either a `Scan` of
standard input failed (an error return), or a token value was marshalled
and written to `token.json`.  `persisted` records, in order, every code
that was passed to `config.Exchange`, and the token written (`none` is
the nil token that a failed exchange returns, marshalled as JSON null). -/
inductive SetupResult where
  | scanError : SetupResult
  | persisted : List String → Option Token → SetupResult
deriving DecidableEq, Repr

/-- Model of lines 90-108 of `setup`: print the auth URL, scan a code,
exchange it; if the exchange fails, scan a second code — but the source
performs no second exchange with it, and proceeds to marshal and persist
the token returned by the first (failed) exchange.  `stdin` is the
sequence of whitespace-separated tokens available on standard input, and
`exchange` the behaviour of `config.Exchange` (`none` = error). -/
def setupExchangeFlow (stdin : List String) (exchange : String → Option Token) : SetupResult :=
  match stdin with
  | [] => SetupResult.scanError
  | c1 :: rest =>
      match exchange c1 with
      | some tok => SetupResult.persisted [c1] (some tok)
      | none =>
          match rest with
          | [] => SetupResult.scanError
          | _ :: _ => SetupResult.persisted [c1] none

/-! ### readCredentials (lines 215-227) -/

/-- Outcome of `readCredentials`: a parsed config, an error value wrapped
and returned to the caller (`errs.Errorf`), or a direct process
termination (`log.Fatalf`). -/
inductive CredResult where
  | ok : String → CredResult
  | propagatedError : String → CredResult
  | fatalExit : String → CredResult
deriving DecidableEq, Repr

/-- Model of `readCredentials`: `fileContent` is the result of reading
`credentials.json` (`none` = read error) and `configFromJSON` the
behaviour of `google.ConfigFromJSON` (`none` = parse failure).  A read
error is wrapped and returned; a parse failure calls `log.Fatalf`,
terminating the process instead of returning the error. -/
def readCredentials (fileContent : Option String)
    (configFromJSON : String → Option String) : CredResult :=
  match fileContent with
  | none => CredResult.propagatedError "Couldn't read credentials file"
  | some content =>
      match configFromJSON content with
      | none => CredResult.fatalExit "Couldn't parse configuration"
      | some cfg => CredResult.ok cfg

/-! ### Concrete values used by witnesses and counterexamples -/

/-- An event at 09:00 UTC on 2024-01-01, summary "A". -/
def evA : Event := ⟨"2024-01-01T09:00:00Z", "A"⟩

/-- An event with the same start time as `evA`, summary "B". -/
def evB : Event := ⟨"2024-01-01T09:00:00Z", "B"⟩

/-- An event at 10:00 UTC on 2024-01-01, summary "A". -/
def ev10 : Event := ⟨"2024-01-01T10:00:00Z", "A"⟩

/-- An event whose start string is empty (an all-day event), summary "X". -/
def e0 : Event := ⟨"", "X"⟩

/-- The event of the spec's formatting example: start
`2024-01-01T09:05:00+02:00`. -/
def evPlus2 : Event := ⟨"2024-01-01T09:05:00+02:00", "X"⟩

/-- 2024-01-01 10:04:59 UTC, in absolute seconds. -/
def t100459 : Int := (civilSecs 2024 1 1 10 4 59 : Int)

/-- 2024-01-01 10:05:01 UTC, in absolute seconds. -/
def t100501 : Int := (civilSecs 2024 1 1 10 5 1 : Int)

/-- An instant at which `evA` is more than five minutes past. -/
def nowAllPast : Int := startAbs evA + 300

/-- An absolute instant that is a UTC midnight, for the day-window
counterexample. -/
def nowC3 : Nat := 86400 * 20000

/-- An exchange oracle that fails on the code "bad" and succeeds on the
code "good". -/
def exTokenOracle : String → Option Token :=
  fun c => if c = "good" then some ⟨"tok"⟩ else none

/-- A `ConfigFromJSON` behaviour on which parsing always fails. -/
def failParse : String → Option String := fun _ => none

end GCal

namespace GCal

/-! ### Helper lemmas about the run loop and the sort contract -/

theorem selectLoop_some (now : Int) (x : Event) (alt : String) (es : List Event) :
    selectLoop now (some x) alt es = (some x, alt ++ tooltipStr es) := by
  induction es generalizing alt with
  | nil => simp [selectLoop, tooltipStr]
  | cons e rest ih =>
      simp [selectLoop, tooltipStr, ih, String.append_assoc]

theorem selectLoop_none (now : Int) (alt : String) (es : List Event) :
    selectLoop now none alt es = (es.find? (nextPred now), alt ++ tooltipStr es) := by
  induction es generalizing alt with
  | nil => simp [selectLoop, tooltipStr]
  | cons e rest ih =>
      by_cases h : nextPred now e
      · simp [selectLoop, tooltipStr, h, selectLoop_some, String.append_assoc,
          List.find?_cons_of_pos]
      · simp [selectLoop, tooltipStr, h, ih, String.append_assoc,
          List.find?_cons_of_neg]

theorem sortSlice_get_mono {items out : List Event} (h : sortSliceSpec items out)
    {i j : Nat} (hi : i < out.length) (hj : j < out.length) (hij : i ≤ j) :
    startAbs (out.get ⟨i, hi⟩) ≤ startAbs (out.get ⟨j, hj⟩) := by
  rcases Nat.lt_or_ge i j with hlt | hge
  · have hp := List.pairwise_iff_get.mp h.2 ⟨i, hi⟩ ⟨j, hj⟩ hlt
    simp only [lessStart] at hp
    exact not_lt.mp hp
  · have hij' : i = j := Nat.le_antisymm hij hge
    subst hij'
    exact le_refl _

/-! ### Claims -/

/-- C1: for every non-empty input list in which every event's start plus
the 5-minute grace window is at or before "now", the loop of `run`
selects no event (the `next` pointer stays nil), and the subsequent
formatting dereferences that nil selection, so `run` produces no
well-defined `BarItem` (modelled as `runFormat` returning `none`). -/
theorem C1_no_selection_undefined (items sorted : List Event) (now : Int)
    (hs : sortSliceSpec items sorted) (hne : items ≠ [])
    (hall : ∀ e ∈ items, startAbs e + 300 ≤ now) :
    (selectLoop now none "" sorted).1 = none ∧ runFormat sorted now = none := by
  have hfind : sorted.find? (nextPred now) = none := by
    rw [List.find?_eq_none]
    intro e he
    have hmem : e ∈ items := hs.1.mem_iff.mp he
    have h300 := hall e hmem
    simp only [nextPred, decide_eq_true_eq]
    omega
  have h1 : (selectLoop now none "" sorted).1 = none := by
    rw [selectLoop_none]
    exact hfind
  refine ⟨h1, ?_⟩
  have hsne : sorted ≠ [] := by
    intro h0
    apply hne
    have hperm := hs.1
    rw [h0] at hperm
    exact List.perm_nil.mp hperm.symm
  simp only [runFormat, List.isEmpty_eq_true, hsne, if_false]
  rw [selectLoop_none, hfind]

theorem C1_witness :
    (selectLoop nowAllPast none "" [evA]).1 = none ∧ runFormat [evA] nowAllPast = none :=
  C1_no_selection_undefined [evA] [evA] nowAllPast (by decide) (by decide) (by decide)

/-- C2, counterexample: the sort contract of `sort.Slice` admits, for the
input `[evA, evB]` whose two events have equal start times, the output
`[evB, evA]` in which their relative order is reversed; the sort is not
stable on equal start times. -/
theorem C2_counterexample :
    sortSliceSpec [evA, evB] [evB, evA] ∧ startAbs evA = startAbs evB ∧ evA ≠ evB := by
  decide

/-- C2, amended: the sort applied before formatting guarantees only that
its output is a permutation of the input that is non-decreasing in parsed
start time; `sort.Slice` is not stable, so events with equal start times
may appear in either relative order. -/
theorem C2_sorted_perm_only (items out : List Event) (h : sortSliceSpec items out) :
    out.Perm items ∧
    ∀ (i j : Nat) (hi : i < out.length) (hj : j < out.length), i ≤ j →
      startAbs (out.get ⟨i, hi⟩) ≤ startAbs (out.get ⟨j, hj⟩) :=
  ⟨h.1, fun _ _ hi hj hij => sortSlice_get_mono h hi hj hij⟩

theorem C2_witness :
    [evB, evA].Perm [evA, evB] ∧ startAbs evB ≤ startAbs evA := by
  have h := C2_sorted_perm_only [evA, evB] [evB, evA] (by decide)
  exact ⟨h.1, h.2 0 1 (by decide) (by decide) (by decide)⟩

/-- C3, counterexample: at the UTC-midnight instant `nowC3`, in a local
zone two hours east of UTC, the lower bound of the query window computed
by `time.Now().Truncate(24h)` is not midnight of the current local day. -/
theorem C3_counterexample : (runFrom nowC3 : Int) ≠ localMidnightSpec nowC3 7200 := by
  decide

/-- C3, amended: on every run invocation the queried range is
`[T, T + 24h)` where `T` is "now" rounded down to a whole multiple of 24
hours since Go's absolute zero time — i.e. midnight of the current day in
UTC, not in local time; the two coincide exactly when the local offset is
zero. -/
theorem C3_window_utc_day (nowAbs : Nat) :
    runFrom nowAbs % 86400 = 0 ∧ runFrom nowAbs ≤ nowAbs ∧ nowAbs < runTo nowAbs ∧
    runTo nowAbs = runFrom nowAbs + 86400 ∧
    localMidnightSpec nowAbs 0 = (runFrom nowAbs : Int) := by
  unfold runTo runFrom goTruncateDay localMidnightSpec
  refine ⟨?_, ?_, ?_, rfl, ?_⟩ <;> omega

/-- C4: the selected next event is exactly the first event, in the order
of the scanned (sorted) list, whose start time satisfies
now < start + 5 minutes; concretely, a single event starting at 10:00 is
selected at now = 10:04:59 and no event is selected at now = 10:05:01. -/
theorem C4_first_match_selected :
    (∀ (now : Int) (es : List Event),
        (selectLoop now none "" es).1 = es.find? (nextPred now)) ∧
    (selectLoop t100459 none "" [ev10]).1 = some ev10 ∧
    (selectLoop t100501 none "" [ev10]).1 = none := by
  refine ⟨?_, by decide, by decide⟩
  intro now es
  rw [selectLoop_none]

end GCal

namespace GCal

/-- C6: for a non-empty list in which a next event is found, the emitted
tooltip is the concatenation of the line of every event of the sorted
list — a permutation of the whole input, in non-decreasing start-time
order — including events before the selected one and the selected one
itself. -/
theorem C6_tooltip_all_events (items sorted : List Event) (now : Int) (bi : BarItem)
    (hs : sortSliceSpec items sorted) (hne : items ≠ [])
    (hrun : runFormat sorted now = some bi) :
    bi.tooltip = some (tooltipStr sorted) ∧ sorted.Perm items ∧
    ∀ (i j : Nat) (hi : i < sorted.length) (hj : j < sorted.length), i ≤ j →
      startAbs (sorted.get ⟨i, hi⟩) ≤ startAbs (sorted.get ⟨j, hj⟩) := by
  refine ⟨?_, hs.1, fun _ _ hi hj hij => sortSlice_get_mono hs hi hj hij⟩
  have hsne : sorted ≠ [] := by
    intro h0
    apply hne
    have hperm := hs.1
    rw [h0] at hperm
    exact List.perm_nil.mp hperm.symm
  simp only [runFormat, List.isEmpty_eq_true, hsne, if_false] at hrun
  rw [selectLoop_none] at hrun
  cases hfind : sorted.find? (nextPred now) with
  | none =>
      rw [hfind] at hrun
      simp at hrun
  | some e =>
      rw [hfind] at hrun
      simp only [Option.some.injEq] at hrun
      rw [← hrun]
      simp only [String.empty_append]

theorem C6_witness :
    (BarItem.mk "10:00 A" (some ("10:00 A\n"))).tooltip = some (tooltipStr [ev10]) ∧
    [ev10].Perm [ev10] ∧
    startAbs ([ev10].get ⟨0, Nat.zero_lt_one⟩) ≤ startAbs ([ev10].get ⟨0, Nat.zero_lt_one⟩) := by
  have h := C6_tooltip_all_events [ev10] [ev10] t100459 ⟨"10:00 A", some ("10:00 A\n")⟩
    (by decide) (by decide) (by decide)
  exact ⟨h.1, h.2.1, h.2.2 0 0 Nat.zero_lt_one Nat.zero_lt_one (le_refl 0)⟩

/-! ### Lemmas for the time-formatting claim -/

theorem digitVal_some {c : Char} {d : Nat} (h : digitVal c = some d) :
    d ≤ 9 ∧ Char.ofNat (48 + d) = c := by
  unfold digitVal at h
  split at h
  · rename_i hc
    injection h with h'
    constructor
    · omega
    · have h48 : 48 + d = c.toNat := by omega
      rw [h48]
      exact Char.ofNat_toNat c
  · exact absurd h (by simp)

theorem num2_some {cs : List Char} {i n : Nat} (h : num2 cs i = some n) :
    ∃ c1 c2, cs.get? i = some c1 ∧ cs.get? (i + 1) = some c2 ∧
      n ≤ 99 ∧ Char.ofNat (48 + n / 10) = c1 ∧ Char.ofNat (48 + n % 10) = c2 := by
  simp only [num2, Option.bind_eq_bind, Option.bind_eq_some, Option.pure_def,
    Option.some.injEq] at h
  obtain ⟨c1, hc1, d1, hd1, c2, hc2, d2, hd2, hn⟩ := h
  obtain ⟨hd1le, hd1c⟩ := digitVal_some hd1
  obtain ⟨hd2le, hd2c⟩ := digitVal_some hd2
  refine ⟨c1, c2, hc1, hc2, by omega, ?_, ?_⟩
  · have hq : n / 10 = d1 := by omega
    rw [hq]
    exact hd1c
  · have hr : n % 10 = d2 := by omega
    rw [hr]
    exact hd2c

theorem mkGoTime_wall (y mo d h mi sec : Nat) (off : Int) :
    (mkGoTime y mo d h mi sec off).abs + (mkGoTime y mo d h mi sec off).offset
      = (civilSecs y mo d h mi sec : Int) := by
  simp [mkGoTime]

theorem parseRFC3339_some {s : String} {t : GoTime} (hp : parseRFC3339 s = some t) :
    ∃ y mo d h mi sec,
      num2 s.data 11 = some h ∧ num2 s.data 14 = some mi ∧
      h ≤ 23 ∧ mi ≤ 59 ∧ sec ≤ 59 ∧
      t.abs + t.offset = (civilSecs y mo d h mi sec : Int) := by
  unfold parseRFC3339 at hp
  simp only [Option.bind_eq_bind, Option.bind_eq_some, Option.pure_def] at hp
  obtain ⟨y, hy, u1, hu1, mo, hmo, u2, hu2, d, hd, u3, hu3, h, hh, u4, hu4,
    mi, hmi, u5, hu5, sec, hsec, hrest⟩ := hp
  refine ⟨y, mo, d, h, mi, sec, hh, hmi, ?_⟩
  split at hrest
  · rename_i hcond
    obtain ⟨_, _, _, _, hh23, hmi59, hsec59⟩ := hcond
    refine ⟨hh23, hmi59, hsec59, ?_⟩
    split at hrest
    · split at hrest
      · simp only [Option.some.injEq] at hrest
        rw [← hrest]
        exact mkGoTime_wall y mo d h mi sec 0
      · exact absurd hrest (by simp)
    · simp only [Option.bind_eq_bind, Option.bind_eq_some, Option.pure_def,
        Option.some.injEq] at hrest
      obtain ⟨off, _, hrest⟩ := hrest
      rw [← hrest]
      exact mkGoTime_wall y mo d h mi sec (off : Int)
    · simp only [Option.bind_eq_bind, Option.bind_eq_some, Option.pure_def,
        Option.some.injEq] at hrest
      obtain ⟨off, _, hrest⟩ := hrest
      rw [← hrest]
      exact mkGoTime_wall y mo d h mi sec (-(off : Int))
    · exact absurd hrest (by simp)
  · exact absurd hrest (by simp)

theorem goFormatHM_wall {t : GoTime} {y mo d h mi sec : Nat}
    (hw : t.abs + t.offset = (civilSecs y mo d h mi sec : Int))
    (hh : h ≤ 23) (hm : mi ≤ 59) (hsec : sec ≤ 59) :
    goFormatHM t = pad2 h ++ ":" ++ pad2 mi := by
  have hq1 : (86400 * civilDays y mo d + 3600 * h + 60 * mi + sec) / 3600 % 24 = h := by
    omega
  have hq2 : (86400 * civilDays y mo d + 3600 * h + 60 * mi + sec) / 60 % 60 = mi := by
    omega
  simp only [goFormatHM, hw, Int.toNat_ofNat, civilSecs]
  rw [hq1, hq2]

theorem pad2_digits {n : Nat} {c1 c2 : Char} (hn : n ≤ 99)
    (h1 : Char.ofNat (48 + n / 10) = c1) (h2 : Char.ofNat (48 + n % 10) = c2) :
    pad2 n = String.mk [c1, c2] := by
  unfold pad2
  have hq : n / 10 % 10 = n / 10 := by omega
  rw [hq, h1, h2]

end GCal

namespace GCal

/-- C7: every event's start time is rendered as zero-padded 24-hour
`HH:MM` with no timezone suffix, reading the wall clock in the event's
own start-time zone offset: the rendered characters are exactly the hour
and minute digits of the RFC3339 string; concretely,
`2024-01-01T09:05:00+02:00` renders as "09:05", while the same absolute
instant viewed at UTC offset would render as "07:05". -/
theorem C7_own_offset_rendering :
    (∀ (s : String) (t : GoTime) (c1 c2 c3 c4 : Char),
        parseRFC3339 s = some t →
        s.data.get? 11 = some c1 → s.data.get? 12 = some c2 →
        s.data.get? 14 = some c3 → s.data.get? 15 = some c4 →
        goFormatHM t = String.mk [c1, c2, ':', c3, c4]) ∧
    goFormatHM (goStart evPlus2) = "09:05" ∧
    goFormatHM ⟨(goStart evPlus2).abs, 0⟩ = "07:05" ∧
    (goFormatHM (goStart evPlus2)).length = 5 := by
  refine ⟨?_, by decide, by decide, by decide⟩
  intro s t c1 c2 c3 c4 hp h11 h12 h14 h15
  obtain ⟨y, mo, d, h, mi, sec, hn2h, hn2mi, hh, hm, hsec, hw⟩ := parseRFC3339_some hp
  obtain ⟨a1, a2, ha1, ha2, hle, hd1, hd2⟩ := num2_some hn2h
  obtain ⟨b1, b2, hb1, hb2, hleb, he1, he2⟩ := num2_some hn2mi
  have ha2' : s.data.get? 12 = some a2 := ha2
  have hb2' : s.data.get? 15 = some b2 := hb2
  rw [h11] at ha1
  rw [h12] at ha2'
  rw [h14] at hb1
  rw [h15] at hb2'
  injection ha1 with ha1
  injection ha2' with ha2'
  injection hb1 with hb1
  injection hb2' with hb2'
  subst ha1
  subst ha2'
  subst hb1
  subst hb2'
  rw [goFormatHM_wall hw hh hm hsec,
    pad2_digits (by omega) hd1 hd2, pad2_digits (by omega) he1 he2]
  rfl

theorem C7_witness :
    goFormatHM (mkGoTime 2024 1 1 9 5 0 7200) = String.mk ['0', '9', ':', '0', '5'] :=
  C7_own_offset_rendering.1 evPlus2.startDateTime (mkGoTime 2024 1 1 9 5 0 7200)
    '0' '9' '0' '5' (by decide) (by decide) (by decide) (by decide) (by decide)

/-- C8: when the fetched event list is empty, `run` emits exactly one
JSON object whose text is the empty string with the tooltip omitted, and
returns success (a well-defined `BarItem` is produced). -/
theorem C8_empty_list_output (now : Int) (out : List Event) (hs : sortSliceSpec [] out) :
    runFormat out now = some ⟨"", none⟩ ∧
    encodeBarItem ⟨"", none⟩ = "\x7b\"text\":\"\"\x7d\n" := by
  have hout : out = [] := List.perm_nil.mp hs.1
  subst hout
  exact ⟨rfl, rfl⟩

theorem C8_witness :
    runFormat [] 0 = some ⟨"", none⟩ ∧
    encodeBarItem ⟨"", none⟩ = "\x7b\"text\":\"\"\x7d\n" :=
  C8_empty_list_output 0 [] (by decide)

/-- C10: an event whose start string does not parse as RFC3339 is treated
as starting at Go's zero time: its parse error is discarded, its tooltip
line is "00:00 " followed by its summary, in any sort output nothing
positioned before it has a positive start time (so it precedes every
event with a valid later timestamp), and once now is at least five
minutes past the zero time it is never the selected next event. -/
theorem C10_unparseable_zero_time (e : Event) (now : Int) (items out : List Event)
    (hbad : parseRFC3339 e.startDateTime = none) :
    (goStart e = goZero ∧ startAbs e = 0) ∧
    lineOf e = "00:00 " ++ e.summary ++ "\n" ∧
    (sortSliceSpec items out →
      ∀ (i j : Nat) (hi : i < out.length) (hj : j < out.length), i < j →
        out.get ⟨j, hj⟩ = e → ¬ (0 < startAbs (out.get ⟨i, hi⟩))) ∧
    (300 ≤ now → ∀ (l : List Event) (x : Event),
      l.find? (nextPred now) = some x → x ≠ e) := by
  have hg : goStart e = goZero := by
    unfold goStart
    rw [hbad]
    rfl
  have h0 : startAbs e = 0 := by
    unfold startAbs
    rw [hg]
    rfl
  refine ⟨⟨hg, h0⟩, ?_, ?_, ?_⟩
  · unfold lineOf
    rw [hg]
    rfl
  · intro hs i j hi hj hij hje hpos
    have hmono := sortSlice_get_mono hs hi hj (Nat.le_of_lt hij)
    rw [hje, h0] at hmono
    omega
  · intro h300 l x hfx hxe
    have hpx := List.find?_some hfx
    subst hxe
    simp only [nextPred, decide_eq_true_eq] at hpx
    rw [h0] at hpx
    omega

theorem C10_witness :
    (goStart e0 = goZero ∧ startAbs e0 = 0) ∧
    lineOf e0 = "00:00 " ++ e0.summary ++ "\n" ∧
    ¬ (0 < startAbs ([e0, e0].get ⟨0, Nat.zero_lt_two⟩)) ∧
    evA ≠ e0 := by
  have h := C10_unparseable_zero_time e0 400 [e0, e0] [e0, e0] (by decide)
  exact ⟨h.1, h.2.1,
    h.2.2.1 (by decide) 0 1 Nat.zero_lt_two Nat.one_lt_two Nat.zero_lt_one (by decide),
    h.2.2.2 (by decide) [evA] evA (by decide)⟩

/-- C5: evidence for the code bug — when the first exchange fails,
`setup` re-prompts and reads a second code from standard input but never
performs a second exchange with it: with input codes ["bad", "good"],
where "bad" fails to exchange and "good" would succeed, exactly one
exchange (with "bad") happens and the nil token of the failed exchange is
what gets persisted. -/
theorem C5_single_exchange_no_retry :
    setupExchangeFlow ["bad", "good"] exTokenOracle
        = SetupResult.persisted ["bad"] none ∧
    exTokenOracle "bad" = none ∧ exTokenOracle "good" = some ⟨"tok"⟩ :=
  ⟨rfl, rfl, rfl⟩

/-- C9, counterexample: a credentials file whose content fails to parse
as an OAuth config does not produce a wrapped, propagated error —
`readCredentials` terminates the process directly via `log.Fatalf`. -/
theorem C9_counterexample :
    readCredentials (some ("not-a-config")) failParse
      = CredResult.fatalExit "Couldn't parse configuration" := rfl

/-- C9, amended: errors are wrapped with context and propagated to the
dispatcher — which logs them and exits non-zero — except that a
credentials file which fails to parse as an OAuth config makes
`readCredentials` terminate the process directly via `log.Fatalf` instead
of returning the error. -/
theorem C9_wrap_except_parse_fatal (p : String → Option String) (c cfg : String) :
    readCredentials none p = CredResult.propagatedError "Couldn't read credentials file" ∧
    (p c = none → readCredentials (some c) p = CredResult.fatalExit "Couldn't parse configuration") ∧
    (p c = some cfg → readCredentials (some c) p = CredResult.ok cfg) := by
  refine ⟨rfl, ?_, ?_⟩
  · intro h
    simp [readCredentials, h]
  · intro h
    simp [readCredentials, h]

theorem C9_witness :
    readCredentials none failParse
        = CredResult.propagatedError "Couldn't read credentials file" ∧
    readCredentials (some ("x")) failParse
        = CredResult.fatalExit "Couldn't parse configuration" := by
  have h := C9_wrap_except_parse_fatal failParse "x" ""
  exact ⟨h.1, h.2.1 rfl⟩

end GCal
